import Mathlib

/-!
# Verification of the AsthmaXpert dashboard (`Asthmaapp.py`)

Shallow embedding of the Streamlit asthma-risk dashboard.  Python floats are
modelled as exact rationals (`ℚ`), Python's `round` as round-half-to-even,
pandas single-row DataFrames as association lists `List (String × Cell)`,
multi-row DataFrames as a `Frame` (column names plus rows of cells), and the
CSV file as a list of rows of field strings (the line/comma encoding of the
CSV format is taken as already inverted; the lossy part modelled here is
pandas' cell serialization and column-wise type inference on `read_csv`).
-/

namespace AsthmaApp

/-- A pandas cell: missing value (NaN), a number, or a string. -/
inductive Cell where
  | nan : Cell
  | num (q : ℚ) : Cell
  | str (s : String) : Cell
deriving DecidableEq

/-- Round a rational to the nearest integer, halves to even — the semantics of
Python 3's built-in `round` (ignoring binary-float representation error,
which none of the claims' inputs depend on). -/
def roundHalfEven (q : ℚ) : ℤ :=
  let f : ℤ := ⌊q⌋
  let r : ℚ := q - f
  if r < 1/2 then f
  else if 1/2 < r then f + 1
  else if f % 2 = 0 then f else f + 1

/-- Python's `round(q, k)`. -/
def pyRound (q : ℚ) (k : ℕ) : ℚ := (roundHalfEven (q * 10 ^ k) : ℚ) / 10 ^ k

/-- Line 53: `fev1_fvc_ratio = round(fev1 / fvc, 3)`.  Python raises
`ZeroDivisionError` when `fvc == 0`, modelled as `none`. -/
def fev1_fvc_ratio (fev1 fvc : ℚ) : Option ℚ :=
  if fvc = 0 then none else some (pyRound (fev1 / fvc) 3)

/-- Line 86: `risk_percent = round(prob * 100, 2)`. -/
def risk_percent (prob : ℚ) : ℚ := pyRound (prob * 100) 2

/-- Line 90: the risk tier is computed from the *rounded* `risk_percent`. -/
def risk_level (prob : ℚ) : String :=
  if risk_percent prob < 30 then "🟢 Low Risk"
  else if risk_percent prob < 70 then "🟡 Medium Risk"
  else "🔴 High Risk"

/-- Line 93: age bracket. -/
def age_group (age : ℚ) : String :=
  if age < 13 then "👶 Child" else if age < 60 then "🧑 Adult" else "👴 Senior"

/-- Lines 96–101: suggested action, also from the rounded `risk_percent`. -/
def action (prob : ℚ) : String :=
  if 70 ≤ risk_percent prob then "🔔 Refer to pulmonologist urgently."
  else if 40 ≤ risk_percent prob then "🩺 Suggest lung function test."
  else "✅ No immediate action needed."

/-- Line 87: prediction label. -/
def predictionLabel (prediction : ℤ) : String :=
  if prediction = 1 then "Asthma Detected" else "No Asthma"

/-- The fifteen scalar sidebar inputs (lines 37–51). -/
structure PatientInput where
  age : ℚ
  bmi : ℚ
  physical : ℚ
  diet : ℚ
  sleep : ℚ
  pollution : ℚ
  pollen : ℚ
  dust : ℚ
  fev1 : ℚ
  fvc : ℚ
  symptoms : ℚ
  smoking : ℚ
  pet_allergy : ℚ
  family_history : ℚ
  history_allergy : ℚ
deriving DecidableEq

/-- The slider/selectbox bounds enforced by the input widgets (lines 37–51). -/
def PatientInput.Valid (p : PatientInput) : Prop :=
  0 ≤ p.age ∧ p.age ≤ 100 ∧
  10 ≤ p.bmi ∧ p.bmi ≤ 50 ∧
  0 ≤ p.physical ∧ p.physical ≤ 10 ∧
  0 ≤ p.diet ∧ p.diet ≤ 10 ∧
  0 ≤ p.sleep ∧ p.sleep ≤ 10 ∧
  0 ≤ p.pollution ∧ p.pollution ≤ 10 ∧
  0 ≤ p.pollen ∧ p.pollen ≤ 10 ∧
  0 ≤ p.dust ∧ p.dust ≤ 10 ∧
  1/2 ≤ p.fev1 ∧ p.fev1 ≤ 5 ∧
  1/2 ≤ p.fvc ∧ p.fvc ≤ 6 ∧
  0 ≤ p.symptoms ∧ p.symptoms ≤ 6 ∧
  (p.smoking = 0 ∨ p.smoking = 1) ∧
  (p.pet_allergy = 0 ∨ p.pet_allergy = 1) ∧
  (p.family_history = 0 ∨ p.family_history = 1) ∧
  (p.history_allergy = 0 ∨ p.history_allergy = 1)

/-- Lines 56–73: `input_dict`, in Python dict insertion order. -/
def input_dict (p : PatientInput) (ratio : ℚ) : List (String × Cell) :=
  [("Age", .num p.age), ("BMI", .num p.bmi),
   ("PhysicalActivity", .num p.physical), ("DietQuality", .num p.diet),
   ("SleepQuality", .num p.sleep), ("PollutionExposure", .num p.pollution),
   ("PollenExposure", .num p.pollen), ("DustExposure", .num p.dust),
   ("LungFunctionFEV1", .num p.fev1), ("LungFunctionFVC", .num p.fvc),
   ("FEV1_FVC_Ratio", .num ratio), ("SymptomScore", .num p.symptoms),
   ("Smoking", .num p.smoking), ("PetAllergy", .num p.pet_allergy),
   ("FamilyHistoryAsthma", .num p.family_history),
   ("HistoryOfAllergies", .num p.history_allergy)]

/-- The sixteen keys of `input_dict`, in order. -/
def input_keys : List String :=
  ["Age", "BMI", "PhysicalActivity", "DietQuality", "SleepQuality",
   "PollutionExposure", "PollenExposure", "DustExposure", "LungFunctionFEV1",
   "LungFunctionFVC", "FEV1_FVC_Ratio", "SymptomScore", "Smoking",
   "PetAllergy", "FamilyHistoryAsthma", "HistoryOfAllergies"]

/-- `df.columns` of a single-row DataFrame. -/
def colNames (df : List (String × Cell)) : List String := df.map Prod.fst

/-- Value of a column in a single-row DataFrame (first match, the only one in
all frames the app builds).  The `.nan` default is never exercised: every use
is guarded by column membership. -/
def lookupCell (df : List (String × Cell)) (c : String) : Cell :=
  ((df.find? fun e => e.1 = c).map Prod.snd).getD .nan

/-- Lines 77–79: `for col in expected_features: if col not in input_data.columns:
input_data[col] = 0`. -/
def fillMissing (expected_features : List String) (df : List (String × Cell)) :
    List (String × Cell) :=
  expected_features.foldl
    (fun acc c => if c ∈ colNames acc then acc else acc ++ [(c, .num 0)]) df

/-- Line 80: `input_data = input_data[expected_features]`; pandas raises
`KeyError` (here `none`) when a requested column is absent. -/
def selectCols (df : List (String × Cell)) (cs : List String) :
    Option (List (String × Cell)) :=
  if cs.all fun c => c ∈ colNames df then
    some (cs.map fun c => (c, lookupCell df c))
  else none

/-- Lines 53–80: the assembled single-row model input. -/
def input_data (expected_features : List String) (p : PatientInput) :
    Option (List (String × Cell)) :=
  (fev1_fvc_ratio p.fev1 p.fvc).bind fun ratio =>
    selectCols (fillMissing expected_features (input_dict p ratio)) expected_features

/-- Lines 104–108: the fixed candidate list for top risk factors. -/
def risk_factors : List String :=
  ["PetAllergy", "PollenExposure", "DustExposure", "PollutionExposure",
   "Smoking", "SymptomScore", "HistoryOfAllergies", "FamilyHistoryAsthma"]

/-- Line 109: `[f for f in risk_factors if f in input_data.columns]`. -/
def available_factors (df : List (String × Cell)) : List String :=
  risk_factors.filter (· ∈ colNames df)

/-- Numeric view of a cell.  Candidate columns of the assembled input are
always `.num` cells, so the other branches are never exercised. -/
def cellNum : Cell → ℚ
  | .num q => q
  | _ => 0

/-- Line 110: `input_data[available_factors].iloc[0]`, a series of the
candidate values keyed by factor name, in candidate order. -/
def input_risk_vals (df : List (String × Cell)) : List (String × ℚ) :=
  (available_factors df).map fun f => (f, cellNum (lookupCell df f))

/-- Stable insertion into an ascending-by-value list: the inserted element
goes before the first element of value ≥ its own. -/
def insertAsc (x : String × ℚ) : List (String × ℚ) → List (String × ℚ)
  | [] => [x]
  | y :: l => if x.2 ≤ y.2 then x :: y :: l else y :: insertAsc x l

/-- Stable ascending sort by value.  For the at-most-8-element series sorted
here, numpy's `quicksort` argsort runs its straight insertion-sort branch
(arrays shorter than 16 elements), which is exactly this stable sort. -/
def sortValsAsc : List (String × ℚ) → List (String × ℚ)
  | [] => []
  | x :: l => insertAsc x (sortValsAsc l)

/-- Line 111, `sort_values(ascending=False)`: pandas (`nargsort`) computes the
ascending argsort and *reverses* it, so equal values end up in reverse
original order. -/
def sort_values_desc (l : List (String × ℚ)) : List (String × ℚ) :=
  (sortValsAsc l).reverse

/-- Line 111: `.head(3).index.tolist()`. -/
def top_risks (df : List (String × Cell)) : List String :=
  ((sort_values_desc (input_risk_vals df)).take 3).map Prod.fst

/-- Line 112: `", ".join(top_risks)`. -/
def top_risk_str (df : List (String × Cell)) : String :=
  String.intercalate ", " (top_risks df)

/-- Position of a factor in the fixed candidate list. -/
def factor_pos (f : String) : ℕ := risk_factors.indexOf f

/-- Strict ranking order: higher value first; on equal values, the *later*
candidate (larger original position) first. -/
def rank_lt (a b : String × ℚ) : Prop :=
  a.2 < b.2 ∨ (a.2 = b.2 ∧ factor_pos a.1 < factor_pos b.1)

/-- `rank_gt a b` means `a` is ranked strictly before `b` by the code. -/
def rank_gt (a b : String × ℚ) : Prop := rank_lt b a

/-- The eight candidate fields with their raw input values, in candidate
order. -/
def cand_vals (p : PatientInput) : List (String × ℚ) :=
  [("PetAllergy", p.pet_allergy), ("PollenExposure", p.pollen),
   ("DustExposure", p.dust), ("PollutionExposure", p.pollution),
   ("Smoking", p.smoking), ("SymptomScore", p.symptoms),
   ("HistoryOfAllergies", p.history_allergy),
   ("FamilyHistoryAsthma", p.family_history)]

/-- Modelled from the spec: stable insertion into a descending-by-value list,
ties broken by original (candidate-list) order — "the 3 with the highest raw
values (ties broken by original field order)". -/
def specInsertDesc (x : String × ℚ) : List (String × ℚ) → List (String × ℚ)
  | [] => [x]
  | y :: l => if y.2 ≤ x.2 then x :: y :: l else y :: specInsertDesc x l

/-- Modelled from the spec: stable descending sort by value. -/
def specSortDesc : List (String × ℚ) → List (String × ℚ)
  | [] => []
  | x :: l => specInsertDesc x (specSortDesc l)

/-- Modelled from the spec: top-3 risk factors with stable original-order
tie-breaking, rendered comma-joined. -/
def spec_top_risk_str (p : PatientInput) : String :=
  String.intercalate ", " (((specSortDesc (cand_vals p)).take 3).map Prod.fst)

/-- The widget default values (lines 34–51): age 30, BMI 22.5, activity 5,
diet 5, sleep 6, pollution 5, pollen 5, dust 5, FEV1 3.2, FVC 4.0,
symptoms 2, all four flags 0. -/
def default_input : PatientInput := ⟨30, 45/2, 5, 5, 6, 5, 5, 5, 16/5, 4, 2, 0, 0, 0, 0⟩

/-! ## The CSV / record-store layer

A CSV file is modelled as a list of rows of field strings (header row first);
the comma/quote/newline encoding performed by `to_csv` and undone by
`read_csv` is taken as already inverted.  What is modelled is the lossy part:
cell serialization to text, and pandas' column-wise type inference when
reading back. -/

/-- Smallest exponent `k ≤ 40` with `den ∣ 10 ^ k` (every denominator the app
produces divides a small power of 10). -/
def decExp (den : ℕ) : Option ℕ := (List.range 41).find? fun k => 10 ^ k % den == 0

/-- Left-pad with zeros to length `n`. -/
def padLeftZeros (s : String) (n : ℕ) : String :=
  ⟨List.replicate (n - s.length) '0'⟩ ++ s

/-- Decimal rendering of a rational, as pandas writes numbers: integers
without a decimal point, fractions in (terminating) decimal notation.  The
`none` fallback never occurs for values the app computes. -/
def ratToString (q : ℚ) : String :=
  match decExp q.den with
  | none => toString q.num ++ "/" ++ toString q.den
  | some 0 => toString q.num
  | some (k + 1) =>
      let m : ℕ := q.num.natAbs * (10 ^ (k + 1) / q.den)
      let s := padLeftZeros (toString m) (k + 2)
      (if q.num < 0 then "-" else "") ++ s.dropRight (k + 1) ++ "." ++ s.takeRight (k + 1)

/-- Value of a decimal digit. -/
def digitVal (c : Char) : Option ℕ :=
  if '0' ≤ c ∧ c ≤ '9' then some (c.toNat - '0'.toNat) else none

/-- Value of a digit string (empty ⇒ 0; callers rule the empty case out). -/
def digitsVal : List Char → Option ℕ
  | [] => some 0
  | c :: cs => (digitVal c).bind fun d => (digitsVal cs).map fun n => d * 10 ^ cs.length + n

/-- The numeric tokens pandas' reader converts to numbers: optional sign,
decimal digits, optional fractional part.  (Scientific notation is not
modelled; the app never writes it.) -/
def parseNumString (s : String) : Option ℚ :=
  let cs := s.data
  let signStrip : Bool × List Char :=
    match cs with
    | '-' :: r => (true, r)
    | '+' :: r => (false, r)
    | _ => (false, cs)
  let body : Option ℚ :=
    match signStrip.2.splitOn '.' with
    | [ip] => if ip.isEmpty then none else (digitsVal ip).map fun n => (n : ℚ)
    | [ip, fp] =>
        if ip.isEmpty ∧ fp.isEmpty then none
        else (digitsVal ip).bind fun n => (digitsVal fp).map fun m =>
          (n : ℚ) + (m : ℚ) / 10 ^ fp.length
    | _ => none
  body.map fun q => if signStrip.1 then -q else q

/-- pandas' default `na_values` tokens. -/
def na_values : List String :=
  ["", "#N/A", "#N/A N/A", "#NA", "-1.#IND", "-1.#QNAN", "-NaN", "-nan",
   "1.#IND", "1.#QNAN", "<NA>", "N/A", "NA", "NULL", "NaN", "None", "n/a",
   "nan", "null"]

/-- How `to_csv` (and `to_excel`) writes one cell: NaN as the empty field,
numbers in decimal, strings verbatim. -/
def serializeCell : Cell → String
  | .nan => ""
  | .num q => ratToString q
  | .str s => s

/-- A field string that keeps a column numeric: an NA token or a number. -/
def isNumToken (s : String) : Bool := na_values.contains s || (parseNumString s).isSome

/-- How `read_csv` reads one field, given whether its column was inferred
numeric. -/
def readCell (numeric : Bool) (s : String) : Cell :=
  if s ∈ na_values then .nan
  else if numeric then
    match parseNumString s with
    | some q => .num q
    | none => .str s
  else .str s

/-- Read one data row, tracking the column index. -/
def readRow (numeric : ℕ → Bool) : ℕ → List String → List Cell
  | _, [] => []
  | j, s :: rest => readCell (numeric j) s :: readRow numeric (j + 1) rest

/-- A pandas DataFrame: column names and rows of cells. -/
structure Frame where
  cols : List String
  rows : List (List Cell)
deriving DecidableEq

/-- `pd.DataFrame()` (line 30 / line 159). -/
def emptyFrame : Frame := ⟨[], []⟩

/-- Line 139, `to_csv(index=False)`: header row then one serialized row per
record. -/
def to_csv (f : Frame) : List (List String) := f.cols :: f.rows.map fun r => r.map serializeCell

/-- Line 154, `to_excel(index=False)`: the spreadsheet mirrors the same
serialization. -/
def to_excel (f : Frame) : List (List String) := f.cols :: f.rows.map fun r => r.map serializeCell

/-- Lines 27–30 reading side of `pd.read_csv`: the header row gives the
column names; a column is numeric iff every entry in it is a number or an NA
token (pandas' column-wise dtype inference).  A file with no rows at all
raises `EmptyDataError`. -/
def read_csv : List (List String) → Except String Frame
  | [] => .error "EmptyDataError"
  | header :: rows =>
      let numeric : ℕ → Bool := fun j => (rows.map fun r => r.getD j "").all isNumToken
      .ok ⟨header, rows.map (readRow numeric 0)⟩

/-- Align one row of a frame with columns `src` to the column list `target`
(missing columns become NaN) — the row-reindexing `pd.concat` performs on an
outer join of mismatched columns. -/
def alignRow (src target : List String) (row : List Cell) : List Cell :=
  target.map fun c =>
    match src.findIdx? (fun x => x == c) with
    | some i => row.getD i .nan
    | none => .nan

/-- Lines 136–138, `pd.concat([store, record], ignore_index=True)`: an empty
frame contributes nothing; equal column lists append rows; otherwise pandas
takes the outer join of the columns. -/
def concatFrames (a b : Frame) : Frame :=
  if a.cols = [] ∧ a.rows = [] then b
  else if a.cols = b.cols then ⟨a.cols, a.rows ++ b.rows⟩
  else
    let cs := a.cols ++ b.cols.filter fun c => ¬ a.cols.contains c
    ⟨cs, a.rows.map (alignRow a.cols cs) ++ b.rows.map (alignRow b.cols cs)⟩

/-- `df[c] = v` on a multi-row frame: overwrite the column if it exists,
otherwise append it on the right. -/
def setcol (f : Frame) (c : String) (v : Cell) : Frame :=
  if c ∈ f.cols then
    ⟨f.cols, f.rows.map fun r => r.set (f.cols.findIdx fun x => x == c) v⟩
  else ⟨f.cols ++ [c], f.rows.map fun r => r ++ [v]⟩

/-- Line 127, `df.insert(0, c, v)`: pandas raises on a duplicate column name
(modelled as `none`). -/
def insert0 (f : Frame) (c : String) (v : Cell) : Option Frame :=
  if c ∈ f.cols then none
  else some ⟨c :: f.cols, f.rows.map fun r => v :: r⟩

/-- Python's `str.strip()`: remove whitespace from both ends. -/
def pyStrip (s : String) : String :=
  ⟨((s.data.dropWhile Char.isWhitespace).reverse.dropWhile Char.isWhitespace).reverse⟩

/-- The seven narrative columns appended to each record (lines 128–134). -/
def meta_cols : List String :=
  ["Prediction", "RiskPercent", "RiskLevel", "AgeGroup", "TopRisks", "Action", "DoctorNote"]

/-- Lines 126–134: build the one-row record frame for one assessment.
`prob` and `prediction` stand for the opaque model's outputs at this input. -/
def mk_record (expected_features : List String) (p : PatientInput)
    (patient_name doctor_note : String) (prob : ℚ) (prediction : ℤ) : Option Frame :=
  (input_data expected_features p).bind fun df =>
  (insert0 ⟨colNames df, [df.map Prod.snd]⟩ "PatientName" (.str patient_name)).map fun f0 =>
    let f1 := setcol f0 "Prediction" (.str (predictionLabel prediction))
    let f2 := setcol f1 "RiskPercent" (.num (risk_percent prob))
    let f3 := setcol f2 "RiskLevel" (.str (risk_level prob))
    let f4 := setcol f3 "AgeGroup" (.str (age_group p.age))
    let f5 := setcol f4 "TopRisks" (.str (top_risk_str df))
    let f6 := setcol f5 "Action" (.str (action prob))
    setcol f6 "DoctorNote" (.str (pyStrip doctor_note))

/-- Session state: the in-memory store plus the backing file's contents
(`none` = the file does not exist). -/
structure AppState where
  store : Frame
  file : Option (List (List String))
deriving DecidableEq

/-- Fresh session with no record file on disk. -/
def init_state : AppState := ⟨emptyFrame, none⟩

/-- Lines 27–30: load the store from the backing file; a missing file is an
empty store, not an error. -/
def load_store (file : Option (List (List String))) : Except String Frame :=
  match file with
  | none => .ok emptyFrame
  | some rows => read_csv rows

/-- Lines 136–139: concat the record onto the store and rewrite the whole
file. -/
def append_record (st : AppState) (record : Frame) : AppState :=
  let s := concatFrames st.store record
  ⟨s, some (to_csv s)⟩

/-- Lines 158–161: reset the store and delete the backing file. -/
def clear_records (_st : AppState) : AppState := ⟨emptyFrame, none⟩

/-- The rows of a list of record frames, concatenated in order. -/
def allRows (records : List Frame) : List (List Cell) :=
  records.foldr (fun r acc => r.rows ++ acc) []

/-- The assembled input frame at the app's own schema and default inputs. -/
def default_df : List (String × Cell) := (input_data input_keys default_input).getD []

/-- A cell of a numeric column that survives the CSV round trip: NaN, or a
number whose decimal rendering parses back to itself. -/
def numCellOk : Cell → Prop
  | .nan => True
  | .num q => parseNumString (ratToString q) = some q
  | .str _ => False

instance : DecidablePred numCellOk := fun c =>
  match c with
  | .nan => isTrue trivial
  | .num _ => inferInstanceAs (Decidable (_ = _))
  | .str _ => isFalse id

/-- A cell of a non-numeric (object) column that survives the CSV round trip:
NaN, or a string that is neither an NA token nor numeric-shaped. -/
def strCellOk : Cell → Prop
  | .nan => True
  | .num _ => False
  | .str s => s ∉ na_values ∧ parseNumString s = none

instance : DecidablePred strCellOk := fun c =>
  match c with
  | .nan => isTrue trivial
  | .num _ => isFalse id
  | .str _ => inferInstanceAs (Decidable (_ ∧ _))

/-- Round-trippable cell, given the inferred type of its column. -/
def cellOk (numeric : Bool) (c : Cell) : Prop :=
  if numeric then numCellOk c else strCellOk c

instance : ∀ b, DecidablePred (cellOk b) := fun b c => by
  unfold cellOk
  infer_instance

/-- The one-row record the app builds at its full schema, default inputs,
patient name "John Doe", an *empty* doctor's note, and model outputs
probability 0.7 / label 1. -/
def cex_cells : List Cell :=
  [.str "John Doe", .num 30, .num (45/2), .num 5, .num 5, .num 6, .num 5, .num 5, .num 5,
   .num (16/5), .num 4, .num (4/5), .num 2, .num 0, .num 0, .num 0, .num 0,
   .str "Asthma Detected", .num 70, .str "🔴 High Risk", .str "🧑 Adult",
   .str "PollutionExposure, DustExposure, PollenExposure",
   .str "🔔 Refer to pulmonologist urgently.", .str ""]

/-- The record frame holding `cex_cells`. -/
def cex_record : Frame := ⟨"PatientName" :: input_keys ++ meta_cols, [cex_cells]⟩

/-- The session state after appending `cex_record` to a fresh store. -/
def cex_state : AppState := append_record init_state cex_record

/-- The serialized data row of `cex_record` as written to the CSV file. -/
def cex_row_lit : List String :=
  ["John Doe", "30", "22.5", "5", "5", "6", "5", "5", "5", "3.2", "4", "0.8", "2",
   "0", "0", "0", "0", "Asthma Detected", "70", "🔴 High Risk", "🧑 Adult",
   "PollutionExposure, DustExposure, PollenExposure",
   "🔔 Refer to pulmonologist urgently.", ""]

/-- The whole CSV file written for `cex_state`. -/
def cex_file_lit : List (List String) :=
  ["PatientName" :: input_keys ++ meta_cols, cex_row_lit]

/-- What `read_csv` gives back for `cex_file_lit`: identical to `cex_cells`
except that the empty DoctorNote field has become NaN. -/
def cex_loaded : List Cell :=
  [.str "John Doe", .num 30, .num (45/2), .num 5, .num 5, .num 6, .num 5, .num 5, .num 5,
   .num (16/5), .num 4, .num (4/5), .num 2, .num 0, .num 0, .num 0, .num 0,
   .str "Asthma Detected", .num 70, .str "🔴 High Risk", .str "🧑 Adult",
   .str "PollutionExposure, DustExposure, PollenExposure",
   .str "🔔 Refer to pulmonologist urgently.", .nan]

/-! ## Lemmas about feature assembly (lines 74–80) -/

theorem colNames_append (df l : List (String × Cell)) :
    colNames (df ++ l) = colNames df ++ colNames l :=
  List.map_append ..

theorem isSome_find?_of_mem_colNames {c : String} :
    ∀ {df : List (String × Cell)}, c ∈ colNames df →
      (df.find? fun x => x.1 = c).isSome := by
  intro df
  induction df with
  | nil => intro h; simp [colNames] at h
  | cons e es ih =>
    intro h
    by_cases hc : e.1 = c
    · rw [List.find?_cons_of_pos _ (by simp [hc])]; rfl
    · rw [List.find?_cons_of_neg _ (by simp [hc])]
      refine ih ?_
      rcases List.mem_cons.mp h with h | h
      · exact absurd h.symm hc
      · exact h

theorem find?_eq_none_of_not_mem_colNames {c : String} {df : List (String × Cell)}
    (h : c ∉ colNames df) : (df.find? fun x => x.1 = c) = none := by
  rw [List.find?_eq_none]
  intro x hx
  simp only [decide_eq_true_eq]
  intro hxc
  exact h (hxc ▸ List.mem_map_of_mem Prod.fst hx)

theorem find?_append_left {p : String × Cell → Bool} {l₁ : List (String × Cell)}
    (l₂ : List (String × Cell)) (h : (l₁.find? p).isSome) :
    (l₁ ++ l₂).find? p = l₁.find? p := by
  induction l₁ with
  | nil => simp [List.find?] at h
  | cons x l ih =>
    by_cases hx : p x
    · simp [List.find?_cons_of_pos _ hx]
    · rw [List.cons_append, List.find?_cons_of_neg _ hx, List.find?_cons_of_neg _ hx]
      exact ih (by rwa [List.find?_cons_of_neg _ hx] at h)

theorem find?_append_right {p : String × Cell → Bool} {l₁ : List (String × Cell)}
    (l₂ : List (String × Cell)) (h : l₁.find? p = none) :
    (l₁ ++ l₂).find? p = l₂.find? p := by
  induction l₁ with
  | nil => rfl
  | cons x l ih =>
    by_cases hx : p x
    · rw [List.find?_cons_of_pos _ hx] at h; exact absurd h (by simp)
    · rw [List.cons_append, List.find?_cons_of_neg _ hx]
      exact ih (by rwa [List.find?_cons_of_neg _ hx] at h)

/-- One step of the fill loop of lines 77–79. -/
def fillStep (df : List (String × Cell)) (c : String) : List (String × Cell) :=
  if c ∈ colNames df then df else df ++ [(c, .num 0)]

theorem fillMissing_cons (c : String) (e : List String) (df : List (String × Cell)) :
    fillMissing (c :: e) df = fillMissing e (fillStep df c) := rfl

theorem mem_colNames_fillStep {c : String} {df : List (String × Cell)} (c' : String)
    (h : c ∈ colNames df) : c ∈ colNames (fillStep df c') := by
  unfold fillStep
  split
  · exact h
  · rw [colNames_append]; exact List.mem_append_left _ h

theorem mem_colNames_fillMissing_of_mem {c : String} :
    ∀ (e : List String) (df : List (String × Cell)), c ∈ colNames df →
      c ∈ colNames (fillMissing e df) := by
  intro e
  induction e with
  | nil => intro df h; exact h
  | cons c' e' ih =>
    intro df h
    rw [fillMissing_cons]
    exact ih _ (mem_colNames_fillStep c' h)

theorem mem_colNames_fillMissing {c : String} :
    ∀ (e : List String) (df : List (String × Cell)), c ∈ e →
      c ∈ colNames (fillMissing e df) := by
  intro e
  induction e with
  | nil => intro df h; simp at h
  | cons c' e' ih =>
    intro df h
    rw [fillMissing_cons]
    rcases List.mem_cons.mp h with h | h
    · subst h
      refine mem_colNames_fillMissing_of_mem _ _ ?_
      unfold fillStep
      split
      · assumption
      · rw [colNames_append]; exact List.mem_append_right _ (by simp [colNames])
    · exact ih _ h

theorem lookupCell_fillStep_of_mem {c : String} {df : List (String × Cell)} (c' : String)
    (h : c ∈ colNames df) : lookupCell (fillStep df c') c = lookupCell df c := by
  unfold fillStep
  split
  · rfl
  · unfold lookupCell
    rw [find?_append_left _ (isSome_find?_of_mem_colNames h)]

theorem lookupCell_fillMissing_of_mem {c : String} :
    ∀ (e : List String) (df : List (String × Cell)), c ∈ colNames df →
      lookupCell (fillMissing e df) c = lookupCell df c := by
  intro e
  induction e with
  | nil => intro df _; rfl
  | cons c' e' ih =>
    intro df h
    rw [fillMissing_cons, ih _ (mem_colNames_fillStep c' h),
      lookupCell_fillStep_of_mem c' h]

theorem lookupCell_fillMissing_of_not_mem {c : String} :
    ∀ (e : List String) (df : List (String × Cell)), c ∈ e → c ∉ colNames df →
      lookupCell (fillMissing e df) c = Cell.num 0 := by
  intro e
  induction e with
  | nil => intro df h; simp at h
  | cons c' e' ih =>
    intro df hce hdf
    rw [fillMissing_cons]
    by_cases hc' : c' ∈ colNames df
    · rcases List.mem_cons.mp hce with h | h
      · exact absurd (h ▸ hc') hdf
      · exact ih _ h (by simpa [fillStep, hc'] using hdf)
    · by_cases hcc : c = c'
      · subst hcc
        have hmem : c ∈ colNames (fillStep df c) := by
          unfold fillStep
          rw [if_neg hc', colNames_append]
          exact List.mem_append_right _ (by simp [colNames])
        rw [lookupCell_fillMissing_of_mem _ _ hmem]
        unfold lookupCell fillStep
        rw [if_neg hc', find?_append_right _ (find?_eq_none_of_not_mem_colNames hdf)]
        simp [List.find?]
      · rcases List.mem_cons.mp hce with h | h
        · exact absurd h hcc
        · refine ih _ h ?_
          simp only [fillStep, if_neg hc', colNames_append]
          intro hmem
          rcases List.mem_append.mp hmem with hmem | hmem
          · exact hdf hmem
          · simp [colNames] at hmem
            exact hcc hmem

theorem lookupCell_map_key {c : String} (g : String → Cell) :
    ∀ (e : List String), c ∈ e →
      lookupCell (e.map fun c' => (c', g c')) c = g c := by
  intro e
  induction e with
  | nil => intro h; simp at h
  | cons c' e' ih =>
    intro h
    by_cases hc : c' = c
    · subst hc
      unfold lookupCell
      rw [List.map_cons, List.find?_cons_of_pos _ (by simp)]
      rfl
    · unfold lookupCell
      rw [List.map_cons, List.find?_cons_of_neg _ (by simp [hc])]
      refine ih ?_
      rcases List.mem_cons.mp h with h | h
      · exact absurd h.symm hc
      · exact h

theorem colNames_map_key (g : String → Cell) (e : List String) :
    colNames (e.map fun c => (c, g c)) = e := by
  unfold colNames
  rw [List.map_map]
  exact List.map_id' e

theorem colNames_input_dict (p : PatientInput) (r : ℚ) :
    colNames (input_dict p r) = input_keys := rfl

theorem fev1_fvc_ratio_some {p : PatientInput} (h : p.fvc ≠ 0) :
    fev1_fvc_ratio p.fev1 p.fvc = some (pyRound (p.fev1 / p.fvc) 3) := by
  simp [fev1_fvc_ratio, h]

theorem input_data_some {p : PatientInput} (e : List String) {r : ℚ}
    (hr : fev1_fvc_ratio p.fev1 p.fvc = some r) :
    input_data e p =
      some (e.map fun c => (c, lookupCell (fillMissing e (input_dict p r)) c)) := by
  unfold input_data selectCols
  rw [hr, Option.some_bind,
    if_pos (List.all_eq_true.mpr fun c hc =>
      decide_eq_true (mem_colNames_fillMissing e (input_dict p r) hc))]

/-- C1.  For every `PatientInput` (with the division on line 53 defined,
i.e. FVC ≠ 0) and every declared feature list, the assembled `input_data`
frame has columns exactly equal to the declared feature list, in its declared
order; every declared feature that is not one of the sixteen collected
columns is filled with 0, and every collected column not in the declared list
is absent from the result. -/
theorem feature_vector_schema (expected_features : List String) (p : PatientInput)
    (h : p.fvc ≠ 0) :
    ∃ df, input_data expected_features p = some df ∧
      colNames df = expected_features ∧
      (∀ c ∈ expected_features, c ∉ input_keys → lookupCell df c = Cell.num 0) ∧
      (∀ c, c ∉ expected_features → c ∉ colNames df) := by
  refine ⟨_, input_data_some expected_features (fev1_fvc_ratio_some h), ?_, ?_, ?_⟩
  · exact colNames_map_key _ _
  · intro c hc hnotin
    rw [lookupCell_map_key _ _ hc]
    refine lookupCell_fillMissing_of_not_mem _ _ hc ?_
    rw [colNames_input_dict]
    exact hnotin
  · intro c hc
    rw [colNames_map_key]
    exact hc

/-- Witness for C1 at a concrete schema (one genuine column, one column the
app does not collect) and the default inputs. -/
theorem feature_vector_schema_witness :
    ∃ df, input_data ["Age", "ExtraFeature"] default_input = some df ∧
      colNames df = ["Age", "ExtraFeature"] ∧
      (∀ c ∈ ["Age", "ExtraFeature"], c ∉ input_keys → lookupCell df c = Cell.num 0) ∧
      (∀ c, c ∉ ["Age", "ExtraFeature"] → c ∉ colNames df) :=
  feature_vector_schema _ default_input (by norm_num [default_input])

/-! ## Lemmas about the top-risk ranking (lines 104–112) -/

theorem insertAsc_perm (x : String × ℚ) (l : List (String × ℚ)) :
    List.Perm (insertAsc x l) (x :: l) := by
  induction l with
  | nil => exact List.Perm.refl _
  | cons y l ih =>
    unfold insertAsc
    split
    · exact List.Perm.refl _
    · exact (ih.cons y).trans (List.Perm.swap x y l)

theorem sortValsAsc_perm (l : List (String × ℚ)) :
    List.Perm (sortValsAsc l) l := by
  induction l with
  | nil => exact List.Perm.refl _
  | cons x l ih => exact (insertAsc_perm x (sortValsAsc l)).trans (ih.cons x)

theorem mem_insertAsc {y x : String × ℚ} {l : List (String × ℚ)} :
    y ∈ insertAsc x l ↔ y = x ∨ y ∈ l := by
  rw [(insertAsc_perm x l).mem_iff, List.mem_cons]

theorem insertAsc_pairwise {x : String × ℚ} {l : List (String × ℚ)}
    (hl : List.Pairwise rank_lt l)
    (hx : ∀ y ∈ l, factor_pos x.1 < factor_pos y.1) :
    List.Pairwise rank_lt (insertAsc x l) := by
  induction l with
  | nil => simp [insertAsc]
  | cons y l ih =>
    rcases List.pairwise_cons.mp hl with ⟨hyl, hl'⟩
    unfold insertAsc
    by_cases hxy : x.2 ≤ y.2
    · rw [if_pos hxy]
      refine List.pairwise_cons.mpr ⟨fun z hz => ?_, hl⟩
      rcases List.mem_cons.mp hz with rfl | hz
      · rcases lt_or_eq_of_le hxy with hlt | heq
        · exact Or.inl hlt
        · exact Or.inr ⟨heq, hx z (List.mem_cons_self _ _)⟩
      · rcases hyl z hz with hlt | ⟨heq, _⟩
        · exact Or.inl (lt_of_le_of_lt hxy hlt)
        · rcases lt_or_eq_of_le (heq ▸ hxy) with hlt | heq'
          · exact Or.inl hlt
          · exact Or.inr ⟨heq', hx z (List.mem_cons_of_mem _ hz)⟩
    · rw [if_neg hxy]
      refine List.pairwise_cons.mpr ⟨fun z hz => ?_,
        ih hl' fun z hz => hx z (List.mem_cons_of_mem _ hz)⟩
      rcases mem_insertAsc.mp hz with rfl | hz
      · exact Or.inl (lt_of_not_le hxy)
      · exact hyl z hz

theorem sortValsAsc_pairwise {l : List (String × ℚ)}
    (hpos : List.Pairwise (fun a b => factor_pos a.1 < factor_pos b.1) l) :
    List.Pairwise rank_lt (sortValsAsc l) := by
  induction l with
  | nil => exact List.Pairwise.nil
  | cons x l ih =>
    rcases List.pairwise_cons.mp hpos with ⟨hx, hl⟩
    exact insertAsc_pairwise (ih hl) fun y hy => hx y ((sortValsAsc_perm l).subset hy)

theorem sort_values_desc_perm (l : List (String × ℚ)) :
    List.Perm (sort_values_desc l) l :=
  (List.reverse_perm _).trans (sortValsAsc_perm l)

theorem sort_values_desc_pairwise {l : List (String × ℚ)}
    (hpos : List.Pairwise (fun a b => factor_pos a.1 < factor_pos b.1) l) :
    List.Pairwise rank_gt (sort_values_desc l) := by
  unfold sort_values_desc
  rw [List.pairwise_reverse]
  exact sortValsAsc_pairwise hpos

theorem input_risk_vals_std (p : PatientInput) (r : ℚ) :
    input_risk_vals (input_keys.map fun c =>
      (c, lookupCell (fillMissing input_keys (input_dict p r)) c)) = cand_vals p := by
  unfold input_risk_vals available_factors
  rw [colNames_map_key]
  rw [show risk_factors.filter (· ∈ input_keys) = risk_factors from by decide]
  have hk : ∀ f ∈ risk_factors, f ∈ input_keys := by decide
  have h2 : risk_factors.map
      (fun f => (f, cellNum (lookupCell (input_dict p r) f))) = cand_vals p := rfl
  rw [← h2]
  refine List.map_congr_left fun f hf => ?_
  rw [lookupCell_map_key _ _ (hk f hf),
    lookupCell_fillMissing_of_mem _ _ (by rw [colNames_input_dict]; exact hk f hf)]

theorem cand_vals_pos_pairwise (p : PatientInput) :
    List.Pairwise (fun a b => factor_pos a.1 < factor_pos b.1) (cand_vals p) := by
  refine List.pairwise_map.mp ?_
  rw [show (cand_vals p).map (fun b => factor_pos b.1) = risk_factors.map factor_pos from rfl]
  decide

/-- C2 amended.  For every `PatientInput` (FVC ≠ 0), the top risk factors at
the app's own schema are computed over the eight candidate fields with their
raw input values; the ranking the code produces is the permutation of the
candidates that is sorted by *strictly* descending rank, where ties on the
raw value are broken by **reverse** candidate order (the later candidate
first — pandas' `sort_values(ascending=False)` reverses a stable ascending
sort); the rendered string comma-joins the first three so ranked. -/
theorem top_risks_ranking (p : PatientInput) (h : p.fvc ≠ 0) :
    ∃ df, input_data input_keys p = some df ∧
      input_risk_vals df = cand_vals p ∧
      List.Perm (sort_values_desc (cand_vals p)) (cand_vals p) ∧
      List.Pairwise rank_gt (sort_values_desc (cand_vals p)) ∧
      top_risk_str df =
        String.intercalate ", " (((sort_values_desc (cand_vals p)).take 3).map Prod.fst) := by
  refine ⟨_, input_data_some input_keys (fev1_fvc_ratio_some h),
    input_risk_vals_std p _, sort_values_desc_perm _,
    sort_values_desc_pairwise (cand_vals_pos_pairwise p), ?_⟩
  unfold top_risk_str top_risks
  rw [input_risk_vals_std p _]

/-- Witness for C2 (amended) at the default inputs. -/
theorem top_risks_ranking_witness :
    ∃ df, input_data input_keys default_input = some df ∧
      input_risk_vals df = cand_vals default_input ∧
      List.Perm (sort_values_desc (cand_vals default_input)) (cand_vals default_input) ∧
      List.Pairwise rank_gt (sort_values_desc (cand_vals default_input)) ∧
      top_risk_str df =
        String.intercalate ", "
          (((sort_values_desc (cand_vals default_input)).take 3).map Prod.fst) :=
  top_risks_ranking default_input (by norm_num [default_input])

/-- C2 counterexample.  At the default widget inputs, pollen, dust and
pollution exposure are all 5 and are the three highest candidates; the code
reports them in *reverse* candidate order, not the original order the spec
mandates for ties. -/
theorem top_risks_ranking_cex :
    top_risk_str default_df = "PollutionExposure, DustExposure, PollenExposure" ∧
    spec_top_risk_str default_input = "PollenExposure, DustExposure, PollutionExposure" ∧
    top_risk_str default_df ≠ spec_top_risk_str default_input := by
  refine ⟨?_, ?_, ?_⟩ <;> with_unfolding_all decide

/-- C10.  For every declared feature list, the ranking considers exactly the
candidates that appear among the declared features: absent candidates are
silently dropped (the computation is total), and the number of reported top
risk factors is `min 3 (number of declared candidates)` — fewer than 3 when
the model declares fewer than 3 of them. -/
theorem top_risks_available_only (expected_features : List String) (p : PatientInput)
    (h : p.fvc ≠ 0) :
    ∃ df, input_data expected_features p = some df ∧
      available_factors df = risk_factors.filter (· ∈ expected_features) ∧
      (top_risks df).length = min 3 (risk_factors.filter (· ∈ expected_features)).length ∧
      ∀ f ∈ top_risks df, f ∈ expected_features ∧ f ∈ risk_factors := by
  refine ⟨_, input_data_some expected_features (fev1_fvc_ratio_some h), ?_, ?_, ?_⟩
  · unfold available_factors
    rw [colNames_map_key]
  · unfold top_risks
    rw [List.length_map, List.length_take, (sort_values_desc_perm _).length_eq]
    unfold input_risk_vals available_factors
    rw [List.length_map, colNames_map_key]
  · intro f hf
    unfold top_risks at hf
    rcases List.mem_map.mp hf with ⟨pair, hpair, rfl⟩
    have h1 : pair ∈ sort_values_desc (input_risk_vals _) :=
      List.mem_of_mem_take hpair
    have h2 : pair ∈ input_risk_vals _ := (sort_values_desc_perm _).subset h1
    rcases List.mem_map.mp h2 with ⟨g, hg, rfl⟩
    unfold available_factors at hg
    rw [colNames_map_key] at hg
    rcases List.mem_filter.mp hg with ⟨hg1, hg2⟩
    exact ⟨by simpa using hg2, hg1⟩

/-- Witness for C10: a schema declaring only two of the eight candidates
yields exactly two top risk factors. -/
theorem top_risks_available_only_witness :
    ∃ df, input_data ["Age", "Smoking", "PetAllergy"] default_input = some df ∧
      available_factors df = risk_factors.filter (· ∈ ["Age", "Smoking", "PetAllergy"]) ∧
      (top_risks df).length =
        min 3 (risk_factors.filter (· ∈ ["Age", "Smoking", "PetAllergy"])).length ∧
      ∀ f ∈ top_risks df, f ∈ ["Age", "Smoking", "PetAllergy"] ∧ f ∈ risk_factors :=
  top_risks_available_only _ default_input (by norm_num [default_input])

/-! ## Risk tier (lines 86, 90) -/

/-- C4 amended.  The tier is a function of the *rounded* percentage
`risk_percent = round(prob*100, 2)`: Low iff it is < 30, Medium iff it is in
[30, 70), High iff it is ≥ 70; the four boundary instances named by the spec
hold as stated. -/
theorem risk_level_tiers (p : ℚ) :
    (risk_level p = "🟢 Low Risk" ↔ risk_percent p < 30) ∧
    (risk_level p = "🟡 Medium Risk" ↔ 30 ≤ risk_percent p ∧ risk_percent p < 70) ∧
    (risk_level p = "🔴 High Risk" ↔ 70 ≤ risk_percent p) ∧
    risk_level (2999/10000) = "🟢 Low Risk" ∧
    risk_level (3/10) = "🟡 Medium Risk" ∧
    risk_level (6999/10000) = "🟡 Medium Risk" ∧
    risk_level (7/10) = "🔴 High Risk" := by
  have hs1 : ("🟢 Low Risk" : String) ≠ "🟡 Medium Risk" := by decide
  have hs2 : ("🟢 Low Risk" : String) ≠ "🔴 High Risk" := by decide
  have hs3 : ("🟡 Medium Risk" : String) ≠ "🔴 High Risk" := by decide
  refine ⟨⟨?_, ?_⟩, ⟨?_, ?_⟩, ⟨?_, ?_⟩, ?_, ?_, ?_, ?_⟩
  · intro heq
    unfold risk_level at heq
    split_ifs at heq with h1 h2
    · exact h1
    · exact absurd heq.symm hs1
    · exact absurd heq.symm hs2
  · intro hlt
    unfold risk_level
    rw [if_pos hlt]
  · intro heq
    unfold risk_level at heq
    split_ifs at heq with h1 h2
    · exact absurd heq hs1
    · exact ⟨le_of_not_lt h1, h2⟩
    · exact absurd heq.symm hs3
  · rintro ⟨h30, h70⟩
    unfold risk_level
    rw [if_neg (not_lt.mpr h30), if_pos h70]
  · intro heq
    unfold risk_level at heq
    split_ifs at heq with h1 h2
    · exact absurd heq hs2
    · exact absurd heq hs3
    · exact le_of_not_lt h2
  · intro h70
    unfold risk_level
    rw [if_neg (not_lt.mpr (by linarith)), if_neg (not_lt.mpr h70)]
  · with_unfolding_all decide
  · with_unfolding_all decide
  · with_unfolding_all decide
  · with_unfolding_all decide

/-- C4 counterexample.  The probability 0.29999 satisfies p×100 < 30, so the
claim's rule puts it in the Low tier, but the code rounds `risk_percent` to
30.0 first and reports Medium. -/
theorem risk_level_boundary_cex :
    (29999 : ℚ)/100000 * 100 < 30 ∧
    risk_level (29999/100000) ≠ "🟢 Low Risk" ∧
    risk_level (29999/100000) = "🟡 Medium Risk" := by
  refine ⟨by norm_num, ?_, ?_⟩ <;> with_unfolding_all decide

/-! ## The FEV1/FVC ratio (line 53) -/

/-- C8.  `round(fev1/fvc, 3)` faults exactly when FVC = 0, and under the
slider constraints (`PatientInput.Valid`, in particular FVC ∈ [0.5, 6.0]) the
fault is unreachable for every `PatientInput`. -/
theorem ratio_fault_guard :
    (∀ fev1 fvc : ℚ, fev1_fvc_ratio fev1 fvc = none ↔ fvc = 0) ∧
    (∀ p : PatientInput, p.Valid → (fev1_fvc_ratio p.fev1 p.fvc).isSome) := by
  constructor
  · intro fev1 fvc
    unfold fev1_fvc_ratio
    split_ifs with h <;> simp [h]
  · intro p hp
    obtain ⟨-, -, -, -, -, -, -, -, -, -, -, -, -, -, -, -, -, -, hfvc, -⟩ := hp
    unfold fev1_fvc_ratio
    rw [if_neg (by intro h0; rw [h0] at hfvc; norm_num at hfvc)]
    rfl

/-- Witness for C8: at the default inputs (FVC = 4.0) the ratio is defined. -/
theorem ratio_fault_guard_witness :
    (fev1_fvc_ratio default_input.fev1 default_input.fvc).isSome :=
  ratio_fault_guard.2 default_input (by norm_num [PatientInput.Valid, default_input])

/-! ## Record store: export, clear, load (lines 142–161) -/

/-- C6.  Exporting a store with no data rows produces exactly the header row
and no data rows; the fresh empty store (`pd.DataFrame()`, which has no
columns) exports to a single empty header row. -/
theorem export_empty_store :
    (∀ f : Frame, f.rows = [] → to_excel f = [f.cols]) ∧
    to_excel emptyFrame = [[]] ∧ (to_excel emptyFrame).length = 1 := by
  refine ⟨fun f hf => ?_, rfl, rfl⟩
  unfold to_excel
  rw [hf]
  rfl

/-- Witness for C6 at a concrete empty store that has a header. -/
theorem export_empty_store_witness :
    to_excel ⟨["PatientName"], []⟩ = [["PatientName"]] :=
  export_empty_store.1 ⟨["PatientName"], []⟩ rfl

/-- C7.  Clearing discards the in-memory records and removes the backing
file; loading a missing record file yields the empty store and is not an
error, so any load after clear returns the empty store. -/
theorem clear_then_load (st : AppState) :
    clear_records st = ⟨emptyFrame, none⟩ ∧
    load_store (clear_records st).file = .ok emptyFrame ∧
    load_store none = .ok emptyFrame :=
  ⟨rfl, rfl, rfl⟩

/-! ## Append (lines 136–139) -/

theorem concatFrames_eq {a : Frame} (b : Frame)
    (h : a.cols = b.cols ∨ (a.cols = [] ∧ a.rows = [])) :
    concatFrames a b = ⟨b.cols, a.rows ++ b.rows⟩ := by
  unfold concatFrames
  rcases h with h | ⟨hc, hr⟩
  · by_cases he : a.cols = [] ∧ a.rows = []
    · rw [if_pos he, he.2]
      rfl
    · rw [if_neg he, if_pos h, h]
  · rw [if_pos ⟨hc, hr⟩, hr]
    rfl

/-- C5.  Append is append-only: the concatenated store is the old rows with
the record's rows added at the end (previously stored rows are bitwise
unchanged), a one-row record grows the store by exactly one row, a further
append still preserves the earlier rows as they were, and only `clear`
erases them (in bulk). -/
theorem append_record_frame_effect (st : AppState) (r r2 : Frame)
    (h : st.store.cols = r.cols ∨ (st.store.cols = [] ∧ st.store.rows = [])) :
    (append_record st r).store.rows = st.store.rows ++ r.rows ∧
    (append_record st r).store.cols = r.cols ∧
    (r.rows.length = 1 →
      (append_record st r).store.rows.length = st.store.rows.length + 1) ∧
    (r2.cols = r.cols →
      (append_record (append_record st r) r2).store.rows
        = (st.store.rows ++ r.rows) ++ r2.rows) ∧
    (clear_records (append_record st r)).store.rows = [] ∧
    (clear_records (append_record st r)).file = none := by
  have h1 : (append_record st r).store = ⟨r.cols, st.store.rows ++ r.rows⟩ := by
    unfold append_record
    exact concatFrames_eq r h
  refine ⟨by rw [h1], by rw [h1], ?_, ?_, rfl, rfl⟩
  · intro hr1
    rw [h1]
    simp [hr1]
  · intro h2
    have h3 : (append_record (append_record st r) r2).store
        = ⟨r2.cols, (st.store.rows ++ r.rows) ++ r2.rows⟩ := by
      unfold append_record
      rw [show (concatFrames st.store r) = _ from h1]
      exact concatFrames_eq r2 (Or.inl h2.symm)
    rw [h3]

/-- Witness for C5 on a fresh store and two concrete one-row records. -/
theorem append_record_frame_effect_witness :
    (append_record init_state ⟨["A"], [[Cell.num 1]]⟩).store.rows
      = init_state.store.rows ++ [[Cell.num 1]] ∧
    (append_record init_state ⟨["A"], [[Cell.num 1]]⟩).store.cols = ["A"] ∧
    (([[Cell.num 1]] : List (List Cell)).length = 1 →
      (append_record init_state ⟨["A"], [[Cell.num 1]]⟩).store.rows.length
        = init_state.store.rows.length + 1) ∧
    ((⟨["A"], [[Cell.num 2]]⟩ : Frame).cols = (⟨["A"], [[Cell.num 1]]⟩ : Frame).cols →
      (append_record (append_record init_state ⟨["A"], [[Cell.num 1]]⟩)
          ⟨["A"], [[Cell.num 2]]⟩).store.rows
        = (init_state.store.rows ++ [[Cell.num 1]]) ++ [[Cell.num 2]]) ∧
    (clear_records (append_record init_state ⟨["A"], [[Cell.num 1]]⟩)).store.rows = [] ∧
    (clear_records (append_record init_state ⟨["A"], [[Cell.num 1]]⟩)).file = none :=
  append_record_frame_effect init_state ⟨["A"], [[Cell.num 1]]⟩ ⟨["A"], [[Cell.num 2]]⟩
    (Or.inr ⟨rfl, rfl⟩)

/-! ## The persisted record's schema (lines 126–139) -/

theorem setcol_step {f : Frame} {cs : List String} {n : ℕ} (hf : f.cols = cs)
    (hrows : f.rows.length = n) (c : String) (v : Cell) (hc : c ∉ cs) :
    (setcol f c v).cols = cs ++ [c] ∧ (setcol f c v).rows.length = n := by
  unfold setcol
  rw [hf, if_neg hc]
  exact ⟨rfl, by simpa using hrows⟩

/-- C9.  When the model's declared features do not clash with the app's
bookkeeping columns, every persisted assessment record has columns, in
order, `PatientName`, the declared feature list, then `Prediction`,
`RiskPercent`, `RiskLevel`, `AgeGroup`, `TopRisks`, `Action`, `DoctorNote`;
it has exactly one row, and the file written for it consists of a header row
followed by its serialized rows (one per assessment). -/
theorem mk_record_schema (expected_features : List String) (p : PatientInput)
    (patient_name doctor_note : String) (prob : ℚ) (prediction : ℤ)
    (hfvc : p.fvc ≠ 0)
    (hdisj : ∀ c ∈ "PatientName" :: meta_cols, c ∉ expected_features) :
    ∃ rec, mk_record expected_features p patient_name doctor_note prob prediction
        = some rec ∧
      rec.cols = "PatientName" :: expected_features ++ meta_cols ∧
      rec.rows.length = 1 ∧
      to_csv rec = rec.cols :: rec.rows.map (fun row => row.map serializeCell) ∧
      (to_csv rec).length = 1 + rec.rows.length := by
  have hname : "PatientName" ∉ expected_features := hdisj _ (List.mem_cons_self _ _)
  have hmeta : ∀ c ∈ meta_cols, c ∉ expected_features := fun c hc =>
    hdisj c (List.mem_cons_of_mem _ hc)
  unfold mk_record
  rw [input_data_some expected_features (fev1_fvc_ratio_some hfvc), Option.some_bind]
  unfold insert0
  rw [colNames_map_key, if_neg hname, Option.map_some']
  set df := expected_features.map fun c =>
    (c, lookupCell (fillMissing expected_features
      (input_dict p (pyRound (p.fev1 / p.fvc) 3))) c) with hdf
  set vals := df.map Prod.snd with hvals
  have h0c : (Frame.mk ("PatientName" :: expected_features)
      ([vals].map fun r => Cell.str patient_name :: r)).cols
      = "PatientName" :: expected_features := rfl
  have h0r : (Frame.mk ("PatientName" :: expected_features)
      ([vals].map fun r => Cell.str patient_name :: r)).rows.length = 1 := rfl
  have nm : ∀ c ∈ meta_cols, c ∉ ("PatientName" : String) :: expected_features := by
    intro c hc
    rw [List.mem_cons]
    rintro (hc1 | hc2)
    · revert hc hc1
      revert c
      decide
    · exact hmeta c hc hc2
  have s1 := setcol_step h0c h0r "Prediction" (.str (predictionLabel prediction))
    (nm _ (by decide))
  have s2 := setcol_step s1.1 s1.2 "RiskPercent" (.num (risk_percent prob)) (by
    simp only [List.mem_append, List.mem_singleton, not_or]
    exact ⟨nm _ (by decide), by decide⟩)
  have s3 := setcol_step s2.1 s2.2 "RiskLevel" (.str (risk_level prob)) (by
    simp only [List.mem_append, List.mem_singleton, not_or]
    exact ⟨⟨nm _ (by decide), by decide⟩, by decide⟩)
  have s4 := setcol_step s3.1 s3.2 "AgeGroup" (.str (age_group p.age)) (by
    simp only [List.mem_append, List.mem_singleton, not_or]
    exact ⟨⟨⟨nm _ (by decide), by decide⟩, by decide⟩, by decide⟩)
  have s5 := setcol_step s4.1 s4.2 "TopRisks" (.str (top_risk_str df)) (by
    simp only [List.mem_append, List.mem_singleton, not_or]
    exact ⟨⟨⟨⟨nm _ (by decide), by decide⟩, by decide⟩, by decide⟩, by decide⟩)
  have s6 := setcol_step s5.1 s5.2 "Action" (.str (action prob)) (by
    simp only [List.mem_append, List.mem_singleton, not_or]
    exact ⟨⟨⟨⟨⟨nm _ (by decide), by decide⟩, by decide⟩, by decide⟩, by decide⟩, by decide⟩)
  have s7 := setcol_step s6.1 s6.2 "DoctorNote" (.str (pyStrip doctor_note)) (by
    simp only [List.mem_append, List.mem_singleton, not_or]
    exact ⟨⟨⟨⟨⟨⟨nm _ (by decide), by decide⟩, by decide⟩, by decide⟩, by decide⟩,
      by decide⟩, by decide⟩)
  refine ⟨_, rfl, ?_, s7.2, rfl, by rw [to_csv, List.length_cons, List.length_map]; ring⟩
  rw [s7.1]
  simp [meta_cols]

/-- Witness for C9: a one-feature schema, default inputs. -/
theorem mk_record_schema_witness :
    ∃ rec, mk_record ["Age"] default_input "John Doe" "" (7/10) 1 = some rec ∧
      rec.cols = "PatientName" :: ["Age"] ++ meta_cols ∧
      rec.rows.length = 1 ∧
      to_csv rec = rec.cols :: rec.rows.map (fun row => row.map serializeCell) ∧
      (to_csv rec).length = 1 + rec.rows.length :=
  mk_record_schema ["Age"] default_input "John Doe" "" (7/10) 1
    (by norm_num [default_input]) (by decide)

/-! ## CSV round trip (lines 27–30 and 136–139) -/

theorem getD_map_serialize (r : List Cell) :
    ∀ (j : ℕ), (r.map serializeCell).getD j "" = serializeCell (r.getD j .nan) := by
  induction r with
  | nil => intro j; cases j <;> rfl
  | cons c t ih =>
    intro j
    cases j with
    | zero => rfl
    | succ j => exact ih j

theorem na_values_not_numeric : ∀ s ∈ na_values, parseNumString s = none := by decide

theorem isNumToken_of_numCellOk {c : Cell} (h : numCellOk c) :
    isNumToken (serializeCell c) = true := by
  cases c with
  | nan => decide
  | num q =>
    have hq : parseNumString (ratToString q) = some q := h
    simp [isNumToken, serializeCell, hq]
  | str s => exact absurd h id

theorem readCell_serialize_nan (b : Bool) : readCell b (serializeCell Cell.nan) = Cell.nan := by
  unfold readCell serializeCell
  rw [if_pos (by decide : ("" : String) ∈ na_values)]

theorem readCell_serialize_num {q : ℚ} (h : parseNumString (ratToString q) = some q) :
    readCell true (serializeCell (Cell.num q)) = Cell.num q := by
  unfold readCell serializeCell
  rw [if_neg fun hna => by
      rw [na_values_not_numeric _ hna] at h
      exact Option.noConfusion h]
  simp only [if_true]
  rw [h]

theorem readCell_serialize_str {s : String} (hna : s ∉ na_values) :
    readCell false (serializeCell (Cell.str s)) = Cell.str s := by
  unfold readCell serializeCell
  rw [if_neg hna]
  rfl

theorem readRow_map_serialize (numeric : ℕ → Bool) :
    ∀ (r : List Cell) (j0 : ℕ),
      (∀ i, readCell (numeric (j0 + i)) (serializeCell (r.getD i .nan)) = r.getD i .nan) →
      readRow numeric j0 (r.map serializeCell) = r := by
  intro r
  induction r with
  | nil => intro j0 _; rfl
  | cons c t ih =>
    intro j0 hP
    show readCell (numeric j0) (serializeCell c) :: readRow numeric (j0 + 1) (t.map serializeCell)
      = c :: t
    have h0 : readCell (numeric j0) (serializeCell c) = c := by
      have := hP 0
      simpa using this
    have h1 : readRow numeric (j0 + 1) (t.map serializeCell) = t := by
      refine ih (j0 + 1) fun i => ?_
      have := hP (i + 1)
      rw [show j0 + (i + 1) = (j0 + 1) + i from by omega] at this
      exact this
    rw [h0, h1]

theorem read_to_csv (f : Frame) (ty : ℕ → Bool)
    (hok : ∀ row ∈ f.rows, ∀ j, cellOk (ty j) (row.getD j .nan)) :
    read_csv (to_csv f) = .ok f := by
  show Except.ok ⟨f.cols, (f.rows.map fun r => r.map serializeCell).map (readRow _ 0)⟩
    = Except.ok f
  set R := f.rows.map fun r => r.map serializeCell with hR
  set numeric : ℕ → Bool := fun j => (R.map fun r => r.getD j "").all isNumToken with hnum
  have hrow : ∀ r ∈ f.rows, readRow numeric 0 (r.map serializeCell) = r := by
    intro r hr
    refine readRow_map_serialize numeric r 0 fun i => ?_
    rw [Nat.zero_add]
    have hcell := hok r hr i
    rcases hc : r.getD i .nan with _ | q | s
    · exact readCell_serialize_nan _
    · rw [hc] at hcell
      cases hb : ty i with
      | false =>
        rw [hb] at hcell
        exact absurd hcell (by simp [cellOk, strCellOk])
      | true =>
        rw [hb] at hcell
        have hq : parseNumString (ratToString q) = some q := by
          simpa [cellOk, numCellOk] using hcell
        have hni : numeric i = true := by
          rw [hnum]
          refine List.all_eq_true.mpr fun s hs => ?_
          rcases List.mem_map.mp hs with ⟨rr, hrr, rfl⟩
          rcases List.mem_map.mp (hR ▸ hrr) with ⟨row, hrowmem, rfl⟩
          rw [getD_map_serialize]
          have hrowcell := hok row hrowmem i
          rw [hb] at hrowcell
          exact isNumToken_of_numCellOk (by simpa [cellOk] using hrowcell)
        rw [hni]
        exact readCell_serialize_num hq
    · rw [hc] at hcell
      cases hb : ty i with
      | true =>
        rw [hb] at hcell
        exact absurd hcell (by simp [cellOk, numCellOk])
      | false =>
        rw [hb] at hcell
        have hsok : s ∉ na_values ∧ parseNumString s = none := by
          simpa [cellOk, strCellOk] using hcell
        have hni : numeric i = false := by
          rw [hnum]
          refine List.all_eq_false.mpr ⟨serializeCell (Cell.str s), ?_, ?_⟩
          · refine List.mem_map.mpr ⟨r.map serializeCell, ?_, ?_⟩
            · rw [hR]
              exact List.mem_map_of_mem _ hr
            · rw [getD_map_serialize, hc]
          · simp [isNumToken, serializeCell, hsok.1, hsok.2]
        rw [hni]
        exact readCell_serialize_str hsok.1
  have hrows : R.map (readRow numeric 0) = f.rows := by
    rw [hR, List.map_map]
    exact Eq.trans (List.map_congr_left fun r hr => hrow r hr) (List.map_id' f.rows)
  rw [hrows]

theorem allRows_cons (r : Frame) (rs : List Frame) :
    allRows (r :: rs) = r.rows ++ allRows rs := rfl

theorem mem_allRows {row : List Cell} :
    ∀ {records : List Frame}, row ∈ allRows records → ∃ rec ∈ records, row ∈ rec.rows := by
  intro records
  induction records with
  | nil => intro h; exact absurd h (by simp [allRows])
  | cons r rs ih =>
    intro h
    rcases List.mem_append.mp (by rwa [allRows_cons] at h) with h | h
    · exact ⟨r, List.mem_cons_self .., h⟩
    · rcases ih h with ⟨rec, hrec, hrow⟩
      exact ⟨rec, List.mem_cons_of_mem _ hrec, hrow⟩

theorem allRows_length_of_single :
    ∀ (records : List Frame), (∀ r ∈ records, r.rows.length = 1) →
      (allRows records).length = records.length := by
  intro records
  induction records with
  | nil => intro _; rfl
  | cons r rs ih =>
    intro h
    rw [allRows_cons, List.length_append, h r (List.mem_cons_self ..),
      ih fun x hx => h x (List.mem_cons_of_mem _ hx), List.length_cons]
    omega

theorem foldl_append_record_store (c : List String) :
    ∀ (records : List Frame) (st : AppState), (∀ r ∈ records, r.cols = c) →
      st.store.cols = c →
      (records.foldl append_record st).store = ⟨c, st.store.rows ++ allRows records⟩ := by
  intro records
  induction records with
  | nil =>
    intro st _ hst
    show st.store = ⟨c, st.store.rows ++ []⟩
    rw [List.append_nil, ← hst]
  | cons r rs ih =>
    intro st hr hst
    rw [List.foldl_cons]
    have h1 : (append_record st r).store = ⟨c, st.store.rows ++ r.rows⟩ := by
      unfold append_record
      exact concatFrames_eq r (Or.inl (hst.trans (hr r (List.mem_cons_self ..)).symm)) |>.trans
        (by rw [hr r (List.mem_cons_self ..)])
    rw [ih (append_record st r) (fun x hx => hr x (List.mem_cons_of_mem _ hx)) (by rw [h1]),
      h1, allRows_cons, List.append_assoc]

theorem foldl_append_record_file :
    ∀ (records : List Frame) (st : AppState), records ≠ [] →
      (records.foldl append_record st).file
        = some (to_csv (records.foldl append_record st).store) := by
  intro records
  induction records with
  | nil => intro st h; exact absurd rfl h
  | cons r rs ih =>
    intro st _
    rw [List.foldl_cons]
    rcases eq_or_ne rs [] with rfl | hne
    · rfl
    · exact ih _ hne

/-- C3 amended.  Appending any N records (sharing one column list) to a fresh
store and reloading from the backing file yields exactly those N rows with
identical cell values, *provided* every cell survives serialization: each
column is either numeric (NaN or numbers whose decimal rendering parses back
to the same value) or textual (NaN or strings that are neither NA tokens nor
numeric-shaped).  Without that proviso the round trip is lossy — see the
counterexample, where an empty DoctorNote reloads as NaN. -/
theorem append_then_reload (c : List String) (records : List Frame) (ty : ℕ → Bool)
    (hc : ∀ r ∈ records, r.cols = c)
    (hok : ∀ r ∈ records, ∀ row ∈ r.rows, ∀ j, cellOk (ty j) (row.getD j .nan)) :
    ∃ f, load_store (records.foldl append_record init_state).file = .ok f ∧
      f.rows = allRows records ∧
      (records ≠ [] → f.cols = c) ∧
      ((∀ r ∈ records, r.rows.length = 1) → f.rows.length = records.length) := by
  cases records with
  | nil => exact ⟨emptyFrame, rfl, rfl, fun h => absurd rfl h, fun _ => rfl⟩
  | cons r rs =>
    have hcr := hc r (List.mem_cons_self ..)
    have h1 : (append_record init_state r).store = ⟨c, r.rows⟩ := by
      unfold append_record init_state
      rw [concatFrames_eq r (Or.inr ⟨rfl, rfl⟩), hcr]
      rfl
    have hstore : ((r :: rs).foldl append_record init_state).store = ⟨c, allRows (r :: rs)⟩ := by
      rw [List.foldl_cons,
        foldl_append_record_store c rs _ (fun x hx => hc x (List.mem_cons_of_mem _ hx))
          (by rw [h1]), h1, allRows_cons]
    have hread : read_csv (to_csv ⟨c, allRows (r :: rs)⟩) = .ok ⟨c, allRows (r :: rs)⟩ := by
      refine read_to_csv _ ty fun row hrow j => ?_
      rcases mem_allRows hrow with ⟨rec, hrec, hrowrec⟩
      exact hok rec hrec row hrowrec j
    refine ⟨⟨c, allRows (r :: rs)⟩, ?_, rfl, fun _ => rfl,
      fun hone => allRows_length_of_single _ hone⟩
    rw [foldl_append_record_file (r :: rs) init_state (by simp), hstore]
    exact hread

/-- Witness for C3 (amended): one record whose cells all survive the round
trip (non-empty, non-numeric strings). -/
theorem append_then_reload_witness :
    ∃ f, load_store ([(⟨["PatientName", "DoctorNote"],
          [[Cell.str "John Doe", Cell.str "stable note"]]⟩ : Frame)].foldl
        append_record init_state).file = .ok f ∧
      f.rows = allRows [(⟨["PatientName", "DoctorNote"],
          [[Cell.str "John Doe", Cell.str "stable note"]]⟩ : Frame)] ∧
      ([(⟨["PatientName", "DoctorNote"],
          [[Cell.str "John Doe", Cell.str "stable note"]]⟩ : Frame)] ≠ ([] : List Frame) →
        f.cols = ["PatientName", "DoctorNote"]) ∧
      ((∀ r ∈ [(⟨["PatientName", "DoctorNote"],
          [[Cell.str "John Doe", Cell.str "stable note"]]⟩ : Frame)], r.rows.length = 1) →
        f.rows.length = 1) := by
  refine append_then_reload ["PatientName", "DoctorNote"] _ (fun _ => false) ?_ ?_
  · intro r hr
    rw [List.mem_singleton.mp hr]
  · intro r hr row hrow j
    rw [List.mem_singleton.mp hr] at hrow
    rw [List.mem_singleton.mp hrow]
    rcases j with _ | _ | j
    · decide
    · decide
    · rw [List.getD_eq_default _ _ (by simp)]
      exact trivial

set_option maxRecDepth 1024 in
/-- C3 counterexample.  The app's own record at the default inputs with an
*empty* doctor's note (the form default) does not round-trip: the empty
DoctorNote cell is written as an empty CSV field, which `read_csv` reads
back as NaN, so the reloaded rows differ from the appended ones. -/
theorem append_then_reload_cex :
    mk_record input_keys default_input "John Doe" "" (7/10) 1 = some cex_record ∧
    (load_store cex_state.file).toOption.map Frame.rows ≠ some cex_state.store.rows := by
  constructor
  · with_unfolding_all rfl
  · have h1 : cex_state.file = some cex_file_lit := by
      show some (to_csv (concatFrames emptyFrame cex_record)) = some cex_file_lit
      rw [show concatFrames emptyFrame cex_record = cex_record from rfl]
      have hser : to_csv cex_record = cex_file_lit := by
        simp only [to_csv, cex_record, cex_cells, cex_file_lit, cex_row_lit,
          List.map_cons, List.map_nil, List.cons.injEq, List.nil_eq, and_true, true_and]
        and_intros <;> with_unfolding_all rfl
      rw [hser]
    have h2 : cex_state.store.rows = [cex_cells] := by with_unfolding_all rfl
    have hload : read_csv cex_file_lit
        = Except.ok ⟨"PatientName" :: input_keys ++ meta_cols, [cex_loaded]⟩ := by
      simp only [cex_file_lit, read_csv, List.map_cons, List.map_nil, Except.ok.injEq,
        Frame.mk.injEq, List.cons.injEq, and_true, true_and]
      simp only [cex_row_lit, cex_loaded, readRow, List.cons.injEq, and_true]
      and_intros <;> with_unfolding_all rfl
    rw [h1, h2]
    show (read_csv cex_file_lit).toOption.map Frame.rows ≠ some [cex_cells]
    rw [hload]
    intro heq
    have h4 : [cex_loaded] = [cex_cells] := Option.some.inj heq
    have h3 : cex_loaded = cex_cells := by injection h4
    have h6 : cex_loaded.getD 23 Cell.nan = cex_cells.getD 23 Cell.nan := by rw [h3]
    exact Cell.noConfusion (show Cell.nan = Cell.str "" from h6)

end AsthmaApp
